import Mathlib

/-!
Verification of the time-filter module (`src/filter/time.rs`).

Instants (`std::time::SystemTime`) are embedded as `Int` values counting
nanoseconds since the Unix epoch; durations (`std::time::Duration`) as `Nat`
nanoseconds.  The representable range of a `SystemTime` follows the 64-bit
`timespec` representation (seconds stored in a signed 64-bit integer), and
`SystemTime - Duration` panics when the result leaves that range, which the
embedding records with an explicit `PResult.panicked` outcome.

The local timezone is kept abstract: a resolver `Int → LocalResult Int` maps a
naive (zone-less) calendar timestamp — represented by its epoch-relative
nanosecond value — to zero, one, or two absolute instants, mirroring chrono's
`TimeZone::from_local_datetime`.
-/

/-- Number of nanoseconds in one second. -/
def NANOS_PER_SEC : Nat := 1000000000

/-- Smallest instant representable by a `SystemTime` (seconds field is a
signed 64-bit integer), in nanoseconds since the epoch. -/
def sysTimeMinNanos : Int := -(2 ^ 63) * (NANOS_PER_SEC : Int)

/-- Largest instant representable by a `SystemTime`, in nanoseconds since the
epoch (maximal seconds field plus maximal nanosecond field). -/
def sysTimeMaxNanos : Int := (2 ^ 63 - 1) * (NANOS_PER_SEC : Int) + ((NANOS_PER_SEC : Int) - 1)

/-- Outcome of running code that may panic: either a panic, or a value. -/
inductive PResult (α : Type) where
  | panicked
  | ok (val : α)
deriving DecidableEq

/-- Map over the value of a non-panicked outcome. -/
def PResult.map {α β : Type} (f : α → β) : PResult α → PResult β
  | .panicked => .panicked
  | .ok v => .ok (f v)

/-- Result of resolving a naive local timestamp against timezone rules,
mirroring chrono's `LocalResult`: no instant, exactly one, or two (DST). -/
inductive LocalResult (α : Type) where
  | none
  | single (t : α)
  | ambiguous (t1 t2 : α)
deriving DecidableEq

/-- Embedding of `SystemTime::checked_sub`: subtract a duration, failing when
the result is not representable.  `SystemTime::sub` panics exactly when this
returns `none`. -/
def checkedSub (t : Int) (d : Nat) : Option Int :=
  if sysTimeMinNanos ≤ t - (d : Int) ∧ t - (d : Int) ≤ sysTimeMaxNanos then
    some (t - (d : Int))
  else
    none

namespace Humantime

/-- Nanosecond value of one duration unit.  Modelled from the spec:
`humantime::parse_duration`'s unit set is not in `src/`; the spec (§6) lists
units ns, us/µs, ms, s/sec, m/min, h, d, w, M (month ≈ 30 d), y (year ≈ 365 d). -/
def unitNanos : String → Option Nat
  | "ns" => some 1
  | "us" => some 1000
  | "µs" => some 1000
  | "ms" => some 1000000
  | "s" => some 1000000000
  | "sec" => some 1000000000
  | "m" => some 60000000000
  | "min" => some 60000000000
  | "h" => some 3600000000000
  | "d" => some 86400000000000
  | "w" => some 604800000000000
  | "M" => some 2592000000000000
  | "y" => some 31536000000000000
  | _ => none

/-- Numeric value of a run of decimal digits. -/
def digitsToNat (ds : List Char) : Nat :=
  ds.foldl (fun a c => a * 10 + (c.toNat - 48)) 0

/-- Characters that may form a duration unit name. -/
def isUnitChar (c : Char) : Bool := c.isAlpha || c = 'µ'

/-- Modelled from the spec: the loop of `humantime::parse_duration` (not in
`src/`).  Repeatedly reads `<integer><unit>` tokens and sums their nanosecond
values; fails on an empty string, a missing number, or an unknown unit. -/
def parse_duration_core : Nat → List Char → Nat → Option Nat
  | 0, _, _ => none
  | fuel + 1, cs, acc =>
    let ds := cs.takeWhile Char.isDigit
    let rest1 := cs.dropWhile Char.isDigit
    if ds.isEmpty then none
    else
      let us := rest1.takeWhile isUnitChar
      let rest2 := rest1.dropWhile isUnitChar
      match unitNanos (String.mk us) with
      | none => none
      | some u =>
        let acc2 := acc + digitsToNat ds * u
        if rest2.isEmpty then some acc2 else parse_duration_core fuel rest2 acc2

/-- Modelled from the spec: `humantime::parse_duration` (not in `src/`).
Parses a composable sequence of `<integer><unit>` tokens ("30sec", "1h30m")
into a duration in nanoseconds. -/
def parse_duration (s : String) : Option Nat :=
  parse_duration_core (s.length + 1) s.data 0

/-- Numeric value of two decimal digit characters, failing on non-digits. -/
def two_digits (c1 c2 : Char) : Option Nat :=
  if c1.isDigit ∧ c2.isDigit then some ((c1.toNat - 48) * 10 + (c2.toNat - 48)) else none

/-- Gregorian leap-year test. -/
def isLeapYear (y : Nat) : Bool :=
  y % 4 == 0 && (y % 100 != 0 || y % 400 == 0)

/-- Days in the year before the given month, and the month's length. -/
def month_table (leap : Bool) : Nat → Option (Nat × Nat)
  | 1 => some (0, 31)
  | 2 => some (31, if leap then 29 else 28)
  | 3 => some (59, 31)
  | 4 => some (90, 30)
  | 5 => some (120, 31)
  | 6 => some (151, 30)
  | 7 => some (181, 31)
  | 8 => some (212, 31)
  | 9 => some (243, 30)
  | 10 => some (273, 31)
  | 11 => some (304, 30)
  | 12 => some (334, 31)
  | _ => none

/-- Fractional-second digits: accumulates nanoseconds digit by digit with a
decreasing multiplier, returning the remaining characters. -/
def fracLoop : List Char → Nat → Nat → Nat × List Char
  | [], _, acc => (acc, [])
  | c :: cs, mult, acc =>
    if c.isDigit then fracLoop cs (mult / 10) (acc + mult * (c.toNat - 48))
    else (acc, c :: cs)

/-- Modelled from the spec: the `Z|±HH:MM` suffix of the weak date grammar
(§6).  Returns the timezone offset in seconds east of UTC; an absent suffix or
a literal `Z` means zero. -/
def parse_offset : List Char → Option Int
  | [] => some 0
  | ['Z'] => some 0
  | [sg, h1, h2, cl, m1, m2] =>
    (two_digits h1 h2).bind fun hh =>
      (two_digits m1 m2).bind fun mm =>
        if cl = ':' ∧ hh ≤ 23 ∧ mm ≤ 59 then
          if sg = '+' then some (Int.ofNat (hh * 3600 + mm * 60))
          else if sg = '-' then some (-(Int.ofNat (hh * 3600 + mm * 60)))
          else none
        else none
  | _ => none

/-- Modelled from the spec: the optional `.fraction` and offset suffix of the
weak date grammar.  Returns subsecond nanoseconds and the offset in seconds. -/
def parse_suffix : List Char → Option (Nat × Int)
  | '.' :: cs =>
    match cs with
    | [] => none
    | c :: _ =>
      if c.isDigit then
        let fr := fracLoop cs 100000000 0
        (parse_offset fr.2).map fun off => (fr.1, off)
      else none
  | rest => (parse_offset rest).map fun off => (0, off)

/-- Modelled from the spec: `humantime::parse_rfc3339_weak` (not in `src/`).
Grammar (§6): `YYYY-MM-DD[THH:MM:SS[.fraction]][Z|±HH:MM]` with a space also
accepted in place of `T`; the time-of-day itself is required here (a bare date
is admitted only through the caller's `" 00:00:00"` fallback).  Returns the
UTC-anchored instant in nanoseconds since the epoch. -/
def parse_rfc3339_weak (s : String) : Option Int :=
  let b := s.data
  if b.length < 19 then none
  else
    (two_digits (b.getD 0 ' ') (b.getD 1 ' ')).bind fun yh =>
    (two_digits (b.getD 2 ' ') (b.getD 3 ' ')).bind fun yl =>
    (two_digits (b.getD 5 ' ') (b.getD 6 ' ')).bind fun month =>
    (two_digits (b.getD 8 ' ') (b.getD 9 ' ')).bind fun day =>
    (two_digits (b.getD 11 ' ') (b.getD 12 ' ')).bind fun hour =>
    (two_digits (b.getD 14 ' ') (b.getD 15 ' ')).bind fun minute =>
    (two_digits (b.getD 17 ' ') (b.getD 18 ' ')).bind fun second =>
    if b.getD 4 ' ' = '-' ∧ b.getD 7 ' ' = '-' ∧
        (b.getD 10 ' ' = 'T' ∨ b.getD 10 ' ' = ' ') ∧
        b.getD 13 ' ' = ':' ∧ b.getD 16 ' ' = ':' then
      let year := yh * 100 + yl
      if year < 1970 ∨ hour > 23 ∨ minute > 59 ∨ second > 59 then none
      else
        (month_table (isLeapYear year) month).bind fun md =>
          if day = 0 ∨ day > md.2 then none
          else
            (parse_suffix (b.drop 19)).bind fun fo =>
              let leapYears :=
                (year - 1 - 1968) / 4 - (year - 1 - 1900) / 100 + (year - 1 - 1600) / 400
              let ydays := md.1 + (day - 1) + (if isLeapYear year ∧ month > 2 then 1 else 0)
              let days := (year - 1970) * 365 + leapYears + ydays
              let secs : Nat := days * 86400 + hour * 3600 + minute * 60 + second
              some (((secs : Int) - fo.2) * (NANOS_PER_SEC : Int) + (fo.1 : Int))
    else none

end Humantime

/-- Embedding of `u64 as i64`: the wrapping cast applied to the seconds count
in `from_epoch.as_secs() as _`. -/
def asI64 (n : Nat) : Int :=
  if n < 2 ^ 63 then (n : Int) else (n : Int) - 2 ^ 64

/-- Embedding of `NaiveDateTime::from_timestamp(secs, nsecs)`: a naive
calendar timestamp represented by its epoch-relative nanosecond value. -/
def naive_from_timestamp (secs : Int) (nsecs : Nat) : Int :=
  secs * (NANOS_PER_SEC : Int) + (nsecs : Int)

/-- The naive calendar timestamp carrying the same field values as the given
epoch-relative duration, as built inside `to_local_system_time`. -/
def naive_of_epoch (fromEpoch : Nat) : Int :=
  naive_from_timestamp (asI64 (fromEpoch / NANOS_PER_SEC)) (fromEpoch % NANOS_PER_SEC)

/-- Embedding of `DateTime::<Local>::from(SystemTime::UNIX_EPOCH)` as an
absolute instant: the epoch itself. -/
def local_epoch : Int := 0

/-- Embedding of `to_local_system_time` (`src/filter/time.rs`): compute the
duration since the epoch (failing for pre-epoch instants), reinterpret the
same epoch-relative fields as a naive local timestamp, resolve it against the
local timezone (keeping only a single-valued resolution), and convert the
resolved local instant back to a `SystemTime` (failing when it precedes the
epoch).  The local timezone's resolution rules are the parameter `lr`. -/
def to_local_system_time (lr : Int → LocalResult Int) (t : Int) : Option Int :=
  (if (0 : Int) ≤ t then some t.toNat else none).bind fun fromEpoch =>
    (match lr (naive_of_epoch fromEpoch) with
     | LocalResult.single l => some l
     | _ => none).bind fun localTime =>
      (if (0 : Int) ≤ localTime - local_epoch then some (localTime - local_epoch) else none).map
        fun d => local_epoch + d

/-- Filter based on time ranges (`TimeFilter` in `src/filter/time.rs`). -/
inductive TimeFilter where
  | Before (limit : Int)
  | After (limit : Int)
deriving DecidableEq

namespace TimeFilter

/-- The weak-date fallback chain of `from_str`: try the string as-is, then
with the literal suffix `" 00:00:00"` appended. -/
def weak_chain (s : String) : Option Int :=
  match Humantime.parse_rfc3339_weak s with
  | some t => some t
  | none => Humantime.parse_rfc3339_weak (s ++ " 00:00:00")

/-- Embedding of `TimeFilter::from_str`: first try the duration grammar
(subtracting from the reference instant, a subtraction that panics when the
result is unrepresentable), otherwise the weak-date chain followed by the
local-time reinterpretation. -/
def from_str (lr : Int → LocalResult Int) (ref_time : Int) (s : String) :
    PResult (Option Int) :=
  match Humantime.parse_duration s with
  | some duration =>
    match checkedSub ref_time duration with
    | some t => .ok (some t)
    | none => .panicked
  | none => .ok ((weak_chain s).bind (to_local_system_time lr))

/-- Embedding of `TimeFilter::before`. -/
def before (lr : Int → LocalResult Int) (ref_time : Int) (s : String) :
    PResult (Option TimeFilter) :=
  (from_str lr ref_time s).map (Option.map TimeFilter.Before)

/-- Embedding of `TimeFilter::after`. -/
def after (lr : Int → LocalResult Int) (ref_time : Int) (s : String) :
    PResult (Option TimeFilter) :=
  (from_str lr ref_time s).map (Option.map TimeFilter.After)

/-- Embedding of `TimeFilter::applies_to`. -/
def applies_to : TimeFilter → Int → Bool
  | .Before limit, t => decide (t ≤ limit)
  | .After limit, t => decide (limit ≤ t)

end TimeFilter

/-- Modelled from the spec: direct construction of naive calendar fields as a
local-timezone datetime — resolve the naive timestamp against the local
timezone's rules, succeeding only on a single-valued resolution. -/
def direct_local_construction (lr : Int → LocalResult Int) (naive : Int) : Option Int :=
  match lr naive with
  | LocalResult.single l => some l
  | _ => none

/-- Local timezone resolver for a zone that never resolves any timestamp;
used to instantiate theorems at a concrete timezone. -/
def lrNever : Int → LocalResult Int := fun _ => LocalResult.none

/-- Local timezone resolver of the fixed-offset zone UTC+03:00: a naive local
timestamp `n` denotes the absolute instant `n` minus three hours. -/
def lrEast3 : Int → LocalResult Int :=
  fun n => LocalResult.single (n - 10800 * (NANOS_PER_SEC : Int))

/-- Local timezone resolver of a zone in which every naive timestamp falls in
a DST fall-back overlap, resolving to two distinct instants. -/
def lrAmbig : Int → LocalResult Int :=
  fun n => LocalResult.ambiguous (n - 3600 * (NANOS_PER_SEC : Int)) n

theorem fromStr_duration_eq (lr : Int → LocalResult Int) (r : Int) (s : String) (d : Nat)
    (h : Humantime.parse_duration s = some d) :
    TimeFilter.from_str lr r s =
      (match checkedSub r d with
       | some t => PResult.ok (some t)
       | none => PResult.panicked) := by
  unfold TimeFilter.from_str
  rw [h]

theorem fromStr_date_eq (lr : Int → LocalResult Int) (r : Int) (s : String)
    (h : Humantime.parse_duration s = none) :
    TimeFilter.from_str lr r s =
      PResult.ok ((TimeFilter.weak_chain s).bind (to_local_system_time lr)) := by
  unfold TimeFilter.from_str
  rw [h]

theorem to_local_neg (lr : Int → LocalResult Int) (t : Int) (h : t < 0) :
    to_local_system_time lr t = none := by
  unfold to_local_system_time
  rw [if_neg (by omega)]
  rfl

theorem to_local_nonneg_eq (lr : Int → LocalResult Int) (t : Int) (h0 : 0 ≤ t) :
    to_local_system_time lr t =
      (match lr (naive_of_epoch t.toNat) with
       | LocalResult.single l => if 0 ≤ l then some l else none
       | _ => none) := by
  unfold to_local_system_time
  rw [if_pos h0]
  show (match lr (naive_of_epoch t.toNat) with
        | LocalResult.single l => some l
        | _ => none).bind _ = _
  cases lr (naive_of_epoch t.toNat) with
  | none => rfl
  | ambiguous a b => rfl
  | single l =>
    show (if (0 : Int) ≤ l - local_epoch then some (l - local_epoch) else none).map _ =
      (if (0 : Int) ≤ l then some l else none)
    unfold local_epoch
    rw [Int.sub_zero]
    by_cases hl : (0 : Int) ≤ l
    · rw [if_pos hl]
      show some (0 + l) = some l
      rw [Int.zero_add]
    · rw [if_neg hl]
      rfl

theorem naive_of_epoch_eq (n : Nat) (h : n < 2 ^ 63 * NANOS_PER_SEC) :
    naive_of_epoch n = (n : Int) := by
  have h2 : n / NANOS_PER_SEC < 2 ^ 63 := Nat.div_lt_of_lt_mul h
  unfold naive_of_epoch naive_from_timestamp asI64
  rw [if_pos h2]
  have h3 : n / NANOS_PER_SEC * NANOS_PER_SEC + n % NANOS_PER_SEC = n := by
    rw [Nat.mul_comm]
    exact Nat.div_add_mod n NANOS_PER_SEC
  exact_mod_cast h3

theorem before_after_of_none (lr : Int → LocalResult Int) (r : Int) (s : String)
    (hf : TimeFilter.from_str lr r s = PResult.ok none) :
    TimeFilter.before lr r s = PResult.ok none ∧
    TimeFilter.after lr r s = PResult.ok none := by
  constructor
  · unfold TimeFilter.before
    rw [hf]
    rfl
  · unfold TimeFilter.after
    rw [hf]
    rfl

theorem applies_to_Before_eq (l t : Int) :
    (TimeFilter.Before l).applies_to t = decide (t ≤ l) := rfl

theorem applies_to_After_eq (l t : Int) :
    (TimeFilter.After l).applies_to t = decide (l ≤ t) := rfl

/-- C1: for every instant `t` and limit `l`, `Before(l).applies_to(t)` returns
true iff `t ≤ l` and `After(l).applies_to(t)` returns true iff `t ≥ l`; at
`t = l` both variants return true (boundary inclusive). -/
theorem C1_applies_to_boundary_inclusive :
    ∀ t l : Int,
      ((TimeFilter.Before l).applies_to t = true ↔ t ≤ l) ∧
      ((TimeFilter.After l).applies_to t = true ↔ l ≤ t) ∧
      (TimeFilter.Before l).applies_to l = true ∧
      (TimeFilter.After l).applies_to l = true := by
  intro t l
  refine ⟨?_, ?_, ?_, ?_⟩ <;> simp [TimeFilter.applies_to]

/-- C2 counterexample: the string "2h" parses as a duration, yet at the
reference instant `sysTimeMinNanos` the code panics in `*ref_time - duration`
instead of returning `Some(reference - duration)`, so the claim's unqualified
universal statement fails at this input. -/
theorem C2_cex_duration_subtraction_panics :
    Humantime.parse_duration "2h" = some 7200000000000 ∧
    TimeFilter.from_str lrNever sysTimeMinNanos "2h" = PResult.panicked := by
  constructor
  · decide
  · decide

/-- C2 (amended): for every reference instant `r` and string `s` parsing as a
relative duration `d`, provided `r - d` stays inside the representable
`SystemTime` range, `from_str` returns `Some(r - d)` — for every local
timezone, so the date branch is never consulted — and a zero duration yields
exactly `r`. -/
theorem C2_amended_duration_branch (lr : Int → LocalResult Int) (r : Int) (s : String) (d : Nat)
    (h : Humantime.parse_duration s = some d)
    (hlo : sysTimeMinNanos ≤ r - (d : Int)) (hhi : r - (d : Int) ≤ sysTimeMaxNanos) :
    TimeFilter.from_str lr r s = PResult.ok (some (r - (d : Int))) ∧
    (d = 0 → TimeFilter.from_str lr r s = PResult.ok (some r)) := by
  have hc : checkedSub r d = some (r - (d : Int)) := by
    unfold checkedSub
    rw [if_pos ⟨hlo, hhi⟩]
  have h1 : TimeFilter.from_str lr r s = PResult.ok (some (r - (d : Int))) := by
    rw [fromStr_duration_eq lr r s d h, hc]
  refine ⟨h1, fun hd0 => ?_⟩
  rw [h1, hd0]
  norm_num

/-- C2 witness: instantiates the amended duration-branch theorem at the
reference instant 100 with the strings "1min" and "0s". -/
theorem C2_amended_duration_branch_witness :
    TimeFilter.from_str lrNever 100 "1min" = PResult.ok (some (100 - (60000000000 : Int))) ∧
    TimeFilter.from_str lrNever 100 "0s" = PResult.ok (some 100) := by
  constructor
  · exact (C2_amended_duration_branch lrNever 100 "1min" 60000000000
      (by decide) (by decide) (by decide)).1
  · exact (C2_amended_duration_branch lrNever 100 "0s" 0
      (by decide) (by decide) (by decide)).2 rfl

/-- C3 counterexample: in the fixed-offset timezone UTC+03:00 the naive
calendar fields of the weak-date instant `1970-01-01 00:00:00` resolve to a
single local instant, yet `to_local_system_time` returns `none` while direct
local construction of the same fields yields that (pre-epoch) instant, so the
two disagree. -/
theorem C3_cex_roundtrip_disagrees_before_epoch :
    Humantime.parse_rfc3339_weak "1970-01-01 00:00:00" = some 0 ∧
    lrEast3 (naive_of_epoch (Int.toNat 0)) =
      LocalResult.single (-(10800 * (1000000000 : Int))) ∧
    to_local_system_time lrEast3 0 = none ∧
    direct_local_construction lrEast3 (naive_of_epoch (Int.toNat 0)) =
      some (-(10800 * (1000000000 : Int))) ∧
    to_local_system_time lrEast3 0 ≠
      direct_local_construction lrEast3 (naive_of_epoch (Int.toNat 0)) := by
  refine ⟨by decide, by decide, by decide, by decide, by decide⟩

/-- C3 (amended): for every weak-date instant `t` (at or after the epoch and
within the cast-faithful range) whose epoch-relative fields resolve to a
single local instant `l` that is itself at or after the epoch,
`to_local_system_time` agrees with direct local construction of those same
calendar fields, both yielding `l`. -/
theorem C3_amended_local_roundtrip (lr : Int → LocalResult Int) (t l : Int)
    (h0 : 0 ≤ t) (hr : t < (2 ^ 63 : Int) * (NANOS_PER_SEC : Int))
    (hs : lr t = LocalResult.single l) (hl : 0 ≤ l) :
    to_local_system_time lr t = some l ∧
    direct_local_construction lr t = some l ∧
    to_local_system_time lr t = direct_local_construction lr t := by
  have hn : naive_of_epoch t.toNat = t := by
    have hb : t.toNat < 2 ^ 63 * NANOS_PER_SEC := by
      zify
      rw [Int.toNat_of_nonneg h0]
      exact_mod_cast hr
    rw [naive_of_epoch_eq t.toNat hb, Int.toNat_of_nonneg h0]
  have h1 : to_local_system_time lr t = some l := by
    rw [to_local_nonneg_eq lr t h0, hn, hs]
    show (if (0 : Int) ≤ l then some l else none) = some l
    rw [if_pos hl]
  have h2 : direct_local_construction lr t = some l := by
    unfold direct_local_construction
    rw [hs]
  exact ⟨h1, h2, h1.trans h2.symm⟩

/-- C3 witness: the UTC string `2010-10-10T10:10:10Z` parses to the instant
1286705410 s, and in the timezone UTC+03:00 the local-time reinterpretation
agrees with direct local construction of the fields `2010-10-10 10:10:10`. -/
theorem C3_amended_local_roundtrip_witness :
    Humantime.parse_rfc3339_weak "2010-10-10T10:10:10Z" =
      some (1286705410 * 1000000000) ∧
    to_local_system_time lrEast3 (1286705410 * 1000000000) =
      some (1286705410 * 1000000000 - 10800 * 1000000000) ∧
    direct_local_construction lrEast3 (1286705410 * 1000000000) =
      some (1286705410 * 1000000000 - 10800 * 1000000000) := by
  have h := C3_amended_local_roundtrip lrEast3 (1286705410 * 1000000000)
    (1286705410 * 1000000000 - 10800 * 1000000000)
    (by decide) (by decide) (by decide) (by decide)
  exact ⟨by decide, h.1, h.2.1⟩

/-- C4: for every string failing duration parsing, `from_str` attempts the
weak-date parse as-is first, and only on failure attempts it with the literal
suffix `" 00:00:00"` appended, the first success supplying the instant; the
bare date "2010-10-10" fails as-is and is admitted via the appended-suffix
attempt. -/
theorem C4_weak_date_fallback_order (lr : Int → LocalResult Int) (r : Int) (s : String)
    (hd : Humantime.parse_duration s = none) :
    (∀ t : Int, Humantime.parse_rfc3339_weak s = some t →
      TimeFilter.from_str lr r s = PResult.ok (to_local_system_time lr t)) ∧
    (Humantime.parse_rfc3339_weak s = none →
      TimeFilter.from_str lr r s =
        PResult.ok ((Humantime.parse_rfc3339_weak (s ++ " 00:00:00")).bind
          (to_local_system_time lr))) ∧
    (Humantime.parse_rfc3339_weak "2010-10-10" = none ∧
     Humantime.parse_rfc3339_weak ("2010-10-10" ++ " 00:00:00") =
       some (1286668800 * 1000000000)) := by
  refine ⟨?_, ?_, by decide, by decide⟩
  · intro t ht
    rw [fromStr_date_eq lr r s hd]
    unfold TimeFilter.weak_chain
    rw [ht]
    rfl
  · intro hw
    rw [fromStr_date_eq lr r s hd]
    unfold TimeFilter.weak_chain
    rw [hw]

/-- C4 witness: instantiates the fallback-order theorem at the bare date
string "2010-10-10", which the as-is weak parse rejects and the
appended-suffix attempt accepts as midnight of that day. -/
theorem C4_weak_date_fallback_order_witness :
    Humantime.parse_rfc3339_weak "2010-10-10" = none ∧
    Humantime.parse_rfc3339_weak ("2010-10-10" ++ " 00:00:00") =
      some (1286668800 * 1000000000) :=
  (C4_weak_date_fallback_order lrNever 0 "2010-10-10" (by decide)).2.2

/-- C5: for every weak-date string whose naive calendar fields do not resolve
to exactly one local instant (ambiguous DST fall-back or nonexistent DST gap),
local resolution fails and `before`/`after` return no filter. -/
theorem C5_non_single_resolution_fails (lr : Int → LocalResult Int) (r : Int) (s : String)
    (t : Int)
    (hd : Humantime.parse_duration s = none)
    (hw : TimeFilter.weak_chain s = some t)
    (hres : ∀ u : Int, lr (naive_of_epoch t.toNat) ≠ LocalResult.single u) :
    to_local_system_time lr t = none ∧
    TimeFilter.before lr r s = PResult.ok none ∧
    TimeFilter.after lr r s = PResult.ok none := by
  have hl : to_local_system_time lr t = none := by
    rcases lt_or_le t 0 with hneg | h0
    · exact to_local_neg lr t hneg
    · rw [to_local_nonneg_eq lr t h0]
      cases hc : lr (naive_of_epoch t.toNat) with
      | single u => exact absurd hc (hres u)
      | none => rfl
      | ambiguous a b => rfl
  have hf : TimeFilter.from_str lr r s = PResult.ok none := by
    rw [fromStr_date_eq lr r s hd, hw]
    show PResult.ok (to_local_system_time lr t) = PResult.ok none
    rw [hl]
  exact ⟨hl, before_after_of_none lr r s hf⟩

/-- C5 witness: in a timezone whose every naive timestamp is ambiguous, the
weak-date string "2010-10-10 10:10:10" produces no filter. -/
theorem C5_non_single_resolution_fails_witness :
    to_local_system_time lrAmbig (1286705410 * 1000000000) = none ∧
    TimeFilter.before lrAmbig 0 "2010-10-10 10:10:10" = PResult.ok none ∧
    TimeFilter.after lrAmbig 0 "2010-10-10 10:10:10" = PResult.ok none :=
  C5_non_single_resolution_fails lrAmbig 0 "2010-10-10 10:10:10"
    (1286705410 * 1000000000) (by decide) (by decide)
    (fun u h => by simp [lrAmbig] at h)

/-- C6: for every reference instant and every string matching neither the
duration grammar nor the weak-date grammar (as-is or with the appended
suffix), both `before` and `after` return `None`, with no error detail and no
partial result. -/
theorem C6_unparsable_yields_none (lr : Int → LocalResult Int) (r : Int) (s : String)
    (hd : Humantime.parse_duration s = none)
    (hw1 : Humantime.parse_rfc3339_weak s = none)
    (hw2 : Humantime.parse_rfc3339_weak (s ++ " 00:00:00") = none) :
    TimeFilter.before lr r s = PResult.ok none ∧
    TimeFilter.after lr r s = PResult.ok none := by
  have hch : TimeFilter.weak_chain s = none := by
    unfold TimeFilter.weak_chain
    rw [hw1, hw2]
  have hf : TimeFilter.from_str lr r s = PResult.ok none := by
    rw [fromStr_date_eq lr r s hd, hch]
    rfl
  exact before_after_of_none lr r s hf

/-- C6 witness: instantiates the invalid-input theorem at the empty string
and at "not-a-time". -/
theorem C6_unparsable_yields_none_witness :
    (TimeFilter.before lrNever 0 "" = PResult.ok none ∧
     TimeFilter.after lrNever 0 "" = PResult.ok none) ∧
    (TimeFilter.before lrNever 0 "not-a-time" = PResult.ok none ∧
     TimeFilter.after lrNever 0 "not-a-time" = PResult.ok none) :=
  ⟨C6_unparsable_yields_none lrNever 0 "" (by decide) (by decide) (by decide),
   C6_unparsable_yields_none lrNever 0 "not-a-time" (by decide) (by decide) (by decide)⟩

/-- C7 counterexample: "10000000000000000000s" is a grammatical, strictly
positive duration string, yet at the reference instant 0 both `after` and
`before` panic in the subtraction, so neither predicate value exists and the
claim's unqualified universal statement fails at this input. -/
theorem C7_cex_construction_panics :
    Humantime.parse_duration "10000000000000000000s" =
      some 10000000000000000000000000000 ∧
    0 < (10000000000000000000000000000 : Nat) ∧
    TimeFilter.after lrNever 0 "10000000000000000000s" = PResult.panicked ∧
    TimeFilter.before lrNever 0 "10000000000000000000s" = PResult.panicked := by
  refine ⟨by decide, by decide, by decide, by decide⟩

/-- C7 (amended): for every reference instant `r` and duration string parsing
to a strictly positive duration `d`, provided `r - d` stays inside the
representable `SystemTime` range, `after` yields the filter `After(r - d)`
which matches `r`, and `before` yields `Before(r - d)` which rejects `r`. -/
theorem C7_amended_positive_duration (lr : Int → LocalResult Int) (r : Int) (s : String)
    (d : Nat)
    (h : Humantime.parse_duration s = some d) (hpos : 0 < d)
    (hlo : sysTimeMinNanos ≤ r - (d : Int)) (hhi : r - (d : Int) ≤ sysTimeMaxNanos) :
    TimeFilter.after lr r s = PResult.ok (some (TimeFilter.After (r - (d : Int)))) ∧
    TimeFilter.before lr r s = PResult.ok (some (TimeFilter.Before (r - (d : Int)))) ∧
    (TimeFilter.After (r - (d : Int))).applies_to r = true ∧
    (TimeFilter.Before (r - (d : Int))).applies_to r = false := by
  have hc : checkedSub r d = some (r - (d : Int)) := by
    unfold checkedSub
    rw [if_pos ⟨hlo, hhi⟩]
  have hf : TimeFilter.from_str lr r s = PResult.ok (some (r - (d : Int))) := by
    rw [fromStr_duration_eq lr r s d h, hc]
  have hd0 : (0 : Int) < (d : Int) := by exact_mod_cast hpos
  refine ⟨?_, ?_, ?_, ?_⟩
  · unfold TimeFilter.after
    rw [hf]
    rfl
  · unfold TimeFilter.before
    rw [hf]
    rfl
  · rw [applies_to_After_eq]
    simp only [decide_eq_true_eq]
    omega
  · rw [applies_to_Before_eq]
    simp only [decide_eq_false_iff_not]
    omega

/-- C7 witness: instantiates the amended theorem at reference instant 0 with
the duration string "1min". -/
theorem C7_amended_positive_duration_witness :
    TimeFilter.after lrNever 0 "1min" =
      PResult.ok (some (TimeFilter.After (0 - (60000000000 : Int)))) ∧
    (TimeFilter.After (0 - (60000000000 : Int))).applies_to 0 = true ∧
    (TimeFilter.Before (0 - (60000000000 : Int))).applies_to 0 = false := by
  have h := C7_amended_positive_duration lrNever 0 "1min" 60000000000
    (by decide) (by decide) (by decide) (by decide)
  exact ⟨h.1, h.2.2.1, h.2.2.2⟩

/-- C8: if two duration strings parse to durations `d1 < d2` and both `after`
constructions succeed, the limit built from `d1` is chronologically at or
after the limit built from `d2`, and the `After` filter from the larger
duration admits every candidate the one from the smaller duration admits. -/
theorem C8_after_monotone_in_duration (lr : Int → LocalResult Int) (r : Int)
    (s1 s2 : String) (d1 d2 : Nat) (l1 l2 : Int)
    (h1 : Humantime.parse_duration s1 = some d1)
    (h2 : Humantime.parse_duration s2 = some d2)
    (hlt : d1 < d2)
    (ha1 : TimeFilter.after lr r s1 = PResult.ok (some (TimeFilter.After l1)))
    (ha2 : TimeFilter.after lr r s2 = PResult.ok (some (TimeFilter.After l2))) :
    l2 ≤ l1 ∧ ∀ t : Int, (TimeFilter.After l1).applies_to t = true →
      (TimeFilter.After l2).applies_to t = true := by
  have e1 : l1 = r - (d1 : Int) := by
    unfold TimeFilter.after at ha1
    rw [fromStr_duration_eq lr r s1 d1 h1] at ha1
    unfold checkedSub at ha1
    by_cases hc : sysTimeMinNanos ≤ r - (d1 : Int) ∧ r - (d1 : Int) ≤ sysTimeMaxNanos
    · rw [if_pos hc] at ha1
      simp [PResult.map] at ha1
      exact ha1.symm
    · rw [if_neg hc] at ha1
      simp [PResult.map] at ha1
  have e2 : l2 = r - (d2 : Int) := by
    unfold TimeFilter.after at ha2
    rw [fromStr_duration_eq lr r s2 d2 h2] at ha2
    unfold checkedSub at ha2
    by_cases hc : sysTimeMinNanos ≤ r - (d2 : Int) ∧ r - (d2 : Int) ≤ sysTimeMaxNanos
    · rw [if_pos hc] at ha2
      simp [PResult.map] at ha2
      exact ha2.symm
    · rw [if_neg hc] at ha2
      simp [PResult.map] at ha2
  have hle : l2 ≤ l1 := by
    rw [e1, e2]
    have : (d1 : Int) < (d2 : Int) := by exact_mod_cast hlt
    omega
  refine ⟨hle, fun t ht => ?_⟩
  rw [applies_to_After_eq] at ht ⊢
  simp only [decide_eq_true_eq] at ht ⊢
  omega

/-- C8 witness: instantiates the monotonicity theorem at reference instant 0
with the strings "1min" and "2min". -/
theorem C8_after_monotone_in_duration_witness :
    (-(120000000000) : Int) ≤ -(60000000000) ∧
    (TimeFilter.After (-(120000000000) : Int)).applies_to (-(60000000000)) = true := by
  have h := C8_after_monotone_in_duration lrNever 0 "1min" "2min"
    60000000000 120000000000 (-(60000000000)) (-(120000000000))
    (by decide) (by decide) (by decide) (by decide) (by decide)
  exact ⟨h.1, h.2 (-(60000000000)) (by decide)⟩

/-- C9: construction is not total on the duration branch: there is a
reference instant and a grammatical duration string (denoting more time than
is representable before that instant) for which the subtraction
`*ref_time - duration` panics — in every local timezone — instead of `before`
or `after` returning `None`. -/
theorem C9_duration_subtraction_can_panic :
    ∃ (r : Int) (s : String) (d : Nat),
      Humantime.parse_duration s = some d ∧
      checkedSub r d = none ∧
      ∀ lr : Int → LocalResult Int,
        TimeFilter.before lr r s = PResult.panicked ∧
        TimeFilter.after lr r s = PResult.panicked := by
  refine ⟨sysTimeMinNanos, "1min", 60000000000, by decide, by decide, fun lr => ?_⟩
  have hf : TimeFilter.from_str lr sysTimeMinNanos "1min" = PResult.panicked := by
    rw [fromStr_duration_eq lr sysTimeMinNanos "1min" 60000000000 (by decide)]
    rw [show checkedSub sysTimeMinNanos 60000000000 = none by decide]
  constructor
  · unfold TimeFilter.before
    rw [hf]
    rfl
  · unfold TimeFilter.after
    rw [hf]
    rfl

/-- C10: for every weak-date string whose parsed UTC instant precedes the
epoch, or whose single-valued local reinterpretation precedes the epoch,
`to_local_system_time` returns `None` and therefore `before`/`after` return
`None`, even though the string matches the weak-date grammar. -/
theorem C10_pre_epoch_yields_none (lr : Int → LocalResult Int) (r : Int) (s : String)
    (t : Int)
    (hd : Humantime.parse_duration s = none)
    (hw : TimeFilter.weak_chain s = some t)
    (hpre : t < 0 ∨ ∃ l : Int, lr (naive_of_epoch t.toNat) = LocalResult.single l ∧ l < 0) :
    to_local_system_time lr t = none ∧
    TimeFilter.before lr r s = PResult.ok none ∧
    TimeFilter.after lr r s = PResult.ok none := by
  have hl : to_local_system_time lr t = none := by
    rcases hpre with hneg | ⟨l, hs, hln⟩
    · exact to_local_neg lr t hneg
    · rcases lt_or_le t 0 with h0 | h0
      · exact to_local_neg lr t h0
      · rw [to_local_nonneg_eq lr t h0, hs]
        show (if (0 : Int) ≤ l then some l else none) = none
        rw [if_neg (by omega)]
  have hf : TimeFilter.from_str lr r s = PResult.ok none := by
    rw [fromStr_date_eq lr r s hd, hw]
    show PResult.ok (to_local_system_time lr t) = PResult.ok none
    rw [hl]
  exact ⟨hl, before_after_of_none lr r s hf⟩

/-- C10 witness: in the timezone UTC+03:00 the bare date "1970-01-01"
(admitted via the appended-suffix attempt, local reinterpretation before the
epoch) yields no filter; and the string "1970-01-01 00:00:00+03:00", whose
parsed UTC instant itself precedes the epoch, also yields no filter. -/
theorem C10_pre_epoch_yields_none_witness :
    (TimeFilter.before lrEast3 0 "1970-01-01" = PResult.ok none ∧
     TimeFilter.after lrEast3 0 "1970-01-01" = PResult.ok none) ∧
    (TimeFilter.before lrNever 0 "1970-01-01 00:00:00+03:00" = PResult.ok none ∧
     TimeFilter.after lrNever 0 "1970-01-01 00:00:00+03:00" = PResult.ok none) := by
  constructor
  · have h := C10_pre_epoch_yields_none lrEast3 0 "1970-01-01" 0 (by decide) (by decide)
      (Or.inr ⟨-(10800 * 1000000000), by decide, by decide⟩)
    exact ⟨h.2.1, h.2.2⟩
  · have h := C10_pre_epoch_yields_none lrNever 0 "1970-01-01 00:00:00+03:00"
      (-(10800 * 1000000000)) (by decide) (by decide) (Or.inl (by decide))
    exact ⟨h.2.1, h.2.2⟩
